import Mathlib

/-!
Shallow embedding of the realtime relay and typing-competition engine of the
wavy repository (src/backend/server.js together with src/backend/store/typingRooms.js
and src/backend/models/Room.js), with theorems checking the frozen claims about it.

Conventions of the embedding:
* JavaScript Map objects become association lists (List (String × _)) whose
  set operation replaces in place, preserving insertion order like Map.set.
* Timestamps (Date.now()) are Nat milliseconds.  Nullable numbers are
  Option Nat; JavaScript truthiness of a number-or-null value is optTruthy
  (null and 0 are falsy).  Nullable strings are Option String with jsStrFalsy
  (undefined and the empty string are falsy).
* socket.emit / socket.to(room).emit / io.to(room).emit calls become an
  explicit event list (Evt) returned next to the updated state.
-/

namespace Wavy

/-- Association-list lookup, modelling JavaScript Map.get (undefined = none). -/
def lookupA {α : Type} : List (String × α) → String → Option α
  | [], _ => none
  | (k', v) :: rest, k => if k' = k then some v else lookupA rest k

/-- Association-list update, modelling JavaScript Map.set: replaces in place
when the key is present (preserving insertion order), appends otherwise. -/
def setA {α : Type} : List (String × α) → String → α → List (String × α)
  | [], k, v => [(k, v)]
  | (k', v') :: rest, k, v =>
    if k' = k then (k, v) :: rest else (k', v') :: setA rest k v

/-- Association-list removal, modelling JavaScript Map.delete. -/
def eraseA {α : Type} : List (String × α) → String → List (String × α)
  | [], _ => []
  | (k', v') :: rest, k => if k' = k then rest else (k', v') :: eraseA rest k

/-- JavaScript truthiness of a number-or-null value: null and 0 are falsy. -/
def optTruthy : Option Nat → Bool
  | none => false
  | some n => n != 0

/-- JavaScript expression x || null for a number-or-null x: 0 collapses to null. -/
def jsOrNull : Option Nat → Option Nat
  | none => none
  | some n => if n = 0 then none else some n

/-- JavaScript falsiness of a string-or-undefined value: undefined and the
empty string are falsy. -/
def jsStrFalsy : Option String → Bool
  | none => true
  | some s => s = ""

/-- JavaScript String.prototype.trim: strip whitespace from both ends. -/
def jsTrim (s : String) : String :=
  ⟨((s.toList.dropWhile Char.isWhitespace).reverse.dropWhile Char.isWhitespace).reverse⟩

/-- JavaScript toUpperCase over the characters of a string. -/
def jsToUpper (s : String) : String :=
  ⟨s.toList.map Char.toUpper⟩

/-- JavaScript String.prototype.slice(0, n). -/
def jsSlice (s : String) (n : Nat) : String :=
  ⟨s.toList.take n⟩

/-- Constant TYPING_TIME_LIMIT_SECONDS from src/backend/store/typingRooms.js. -/
def TYPING_TIME_LIMIT_SECONDS : Nat := 60

/-- Constant TYPING_TIME_LIMIT_MS from src/backend/server.js line 63. -/
def TYPING_TIME_LIMIT_MS : Nat := TYPING_TIME_LIMIT_SECONDS * 1000

/-- Constant MIN_USERNAME_LENGTH from src/backend/server.js line 60. -/
def MIN_USERNAME_LENGTH : Nat := 3

/-- Constant MAX_USERNAME_LENGTH from src/backend/server.js line 61. -/
def MAX_USERNAME_LENGTH : Nat := 15

/-- Character class of USERNAME_PATTERN = /^[a-zA-Z0-9 _-]+$/ (server.js line 62);
Char.isAlpha and Char.isDigit are exactly the ASCII ranges of the class. -/
def usernameChar (c : Char) : Bool :=
  c.isAlpha || c.isDigit || c = ' ' || c = '_' || c = '-'

/-- Function normalizeRoomId (server.js line 65): (roomId || '').trim().toUpperCase(). -/
def normalizeRoomId (roomId : Option String) : String :=
  jsToUpper (jsTrim (roomId.getD ""))

/-- Function sanitizeUsername (server.js lines 67-76): trim, check length bounds
and the allow-listed character set; null on failure.  The + of the regular
expression (nonempty) is subsumed by the lower length bound. -/
def sanitizeUsername (rawUsername : Option String) : Option String :=
  let trimmed := jsTrim (rawUsername.getD "")
  if trimmed.length < MIN_USERNAME_LENGTH ∨ MAX_USERNAME_LENGTH < trimmed.length then none
  else if ¬ (trimmed.toList.all usernameChar) then none
  else some trimmed

/-- Result record of computeScore (server.js lines 78-98). -/
structure ScoreResult where
  score : Int
  correctChars : Nat
  typedLength : Nat
  deriving DecidableEq, Repr

/-- Loop body of computeScore: walks the typed characters next to the target
characters; a typed position beyond the target subtracts 1, a mismatch
subtracts 1, a match adds 1 and counts a correct character. -/
def scoreLoop : List Char → List Char → Int × Nat
  | [], _ => (0, 0)
  | _ :: ts, [] =>
    let r := scoreLoop ts []
    (r.1 - 1, r.2)
  | a :: ts, e :: gs =>
    let r := scoreLoop ts gs
    if a = e then (r.1 + 1, r.2 + 1) else (r.1 - 1, r.2)

/-- Function computeScore (server.js lines 78-98). -/
def computeScore (referenceText inputValue : String) : ScoreResult :=
  let r := scoreLoop inputValue.toList referenceText.toList
  { score := r.1, correctChars := r.2, typedLength := inputValue.toList.length }

/-- Number of positions where the typed character equals the target character. -/
def matchCount : List Char → List Char → Nat
  | a :: ts, e :: gs => (if a = e then 1 else 0) + matchCount ts gs
  | _, _ => 0

/-- Number of positions inside the target where the typed character differs. -/
def mismatchCount : List Char → List Char → Nat
  | a :: ts, e :: gs => (if a = e then 0 else 1) + mismatchCount ts gs
  | _, _ => 0

/-- Number of typed positions beyond the end of the target. -/
def excessCount : List Char → List Char → Nat
  | [], _ => 0
  | _ :: ts, [] => excessCount ts [] + 1
  | _ :: ts, _ :: gs => excessCount ts gs

/-- Per-room competitor record stored in room.users (shape built in
handleJoinTypingRoom, server.js lines 260-276).  lastUpdateAt is a plain Nat
because the join handler always initialises it with Date.now(). -/
structure Participant where
  socketId : String
  username : String
  score : Int
  typedLength : Nat
  correctChars : Nat
  lastInputLength : Nat
  lastInputValue : String
  lastUpdateAt : Nat
  isCompleted : Bool
  completionTime : Option Nat
  flags : List String
  isFlagged : Bool
  startedAt : Option Nat
  expiresAt : Option Nat
  isTimeUp : Bool
  deriving DecidableEq, Repr

/-- Voice entry stored in room.voiceParticipants (server.js lines 385-389). -/
structure VoiceParticipant where
  socketId : String
  username : String
  joinedAt : Nat
  deriving DecidableEq, Repr

/-- In-memory typing room (src/backend/store/typingRooms.js, createTypingRoom). -/
structure TypingRoom where
  roomId : String
  text : String
  createdAt : Nat
  users : List (String × Participant)
  voiceParticipants : List (String × VoiceParticipant)
  deriving DecidableEq, Repr

/-- Durable canvas-room record (src/backend/models/Room.js schema). -/
structure CanvasRoom where
  roomId : String
  createdAt : Nat
  users : List String
  isActive : Bool
  deriving DecidableEq, Repr

/-- Whole mutable state of the relay process: the two socket-to-room maps
(server.js lines 57-58), the durable canvas-room store (the mongoose Room
collection keyed by roomId) and the in-memory typingRooms map. -/
structure ServerState where
  socketRoomMap : List (String × String)
  typingSocketRoomMap : List (String × String)
  rooms : List (String × CanvasRoom)
  typingRooms : List (String × TypingRoom)
  deriving DecidableEq, Repr

/-- Leaderboard row produced by the map step of emitTypingRoomState
(server.js lines 118-130). -/
structure LeaderboardEntry where
  socketId : String
  username : String
  score : Int
  isCompleted : Bool
  completionTime : Option Nat
  flags : List String
  isFlagged : Bool
  isTimeUp : Bool
  startedAt : Option Nat
  expiresAt : Option Nat
  deriving DecidableEq, Repr

/-- Map step of emitTypingRoomState: project a participant to a leaderboard
row; the expressions x || null collapse a 0 timestamp to null and
user.score || 0, Boolean(_), user.flags || [] are identities here because the
fields are always initialised by the join handler. -/
def toEntry (u : Participant) : LeaderboardEntry :=
  { socketId := u.socketId
    username := u.username
    score := u.score
    isCompleted := u.isCompleted
    completionTime := jsOrNull u.completionTime
    flags := u.flags
    isFlagged := u.isFlagged
    isTimeUp := u.isTimeUp
    startedAt := jsOrNull u.startedAt
    expiresAt := jsOrNull u.expiresAt }

/-- Sign-valued comparison of strings standing for username.localeCompare:
negative when a sorts first, positive when b sorts first, zero on equality. -/
def strCompare (a b : String) : Int :=
  if a < b then -1 else if b < a then 1 else 0

/-- Comparator of the leaderboard sort (server.js lines 131-145): score
descending, then completion time ascending with a present (truthy) completion
time before an absent one, then username comparison. -/
def leaderboardCmp (a b : LeaderboardEntry) : Int :=
  if a.score ≠ b.score then b.score - a.score
  else if optTruthy a.completionTime ∧ optTruthy b.completionTime then
    (a.completionTime.getD 0 : Int) - (b.completionTime.getD 0 : Int)
  else if optTruthy a.completionTime then -1
  else if optTruthy b.completionTime then 1
  else strCompare a.username b.username

/-- Stable insertion of one element into an already-sorted list: the new
element goes after every element it does not strictly precede, matching the
stability of Array.prototype.sort. -/
def insertByCmp {α : Type} (cmp : α → α → Int) (x : α) : List α → List α
  | [] => [x]
  | y :: ys => if cmp x y < 0 then x :: y :: ys else y :: insertByCmp cmp x ys

/-- Stable comparator sort modelling Array.prototype.sort. -/
def sortByCmp {α : Type} (cmp : α → α → Int) (l : List α) : List α :=
  l.foldl (fun acc x => insertByCmp cmp x acc) []

/-- Events emitted by the relay: one constructor per socket.emit /
socket.to(...).emit / io.to(...).emit call site.  A constructor with a target
field is a direct emit to that socket; an exceptId field marks a
socket.to(room) broadcast that skips the sender; otherwise io.to(room)
reaches the whole room. -/
inductive Evt where
  | roomError (target : String) (message : String)
  | existingUsers (target : String) (roomId : String) (users : List String)
  | userJoined (roomId : String) (exceptId : String) (socketId : String)
  | userCountUpdate (roomId : String) (count : Nat)
  | userLeft (roomId : String) (exceptId : String) (socketId : String)
  | typingRoomError (target : String) (message : String)
  | typingRoomReady (target : String) (roomId : String) (text : String)
      (timeLimitSeconds : Nat)
  | typingUsersUpdate (roomId : String) (count : Nat)
  | leaderboardUpdate (roomId : String) (leaderboard : List LeaderboardEntry)
  | userFinished (roomId : String) (username : String) (completionTime : Nat)
  | typingTimeup (target : String) (roomId : String) (username : String)
  | userTimeup (roomId : String) (exceptId : String) (username : String)
  | voiceError (target : String) (message : String)
  | voiceParticipants (target : String) (roomId : String)
      (participants : List VoiceParticipant)
  | voiceUserJoined (roomId : String) (exceptId : String) (socketId : String)
      (username : String)
  | voiceUserLeft (roomId : String) (exceptId : Option String) (socketId : String)
  | signal (target : String) (eventName : String) (fromId : String)
      (offer answer candidate : Option String)
  deriving DecidableEq, Repr

/-- Function emitTypingRoomState (server.js lines 113-149): emit the member
count and the sorted leaderboard to the whole typing room. -/
def emitTypingRoomState (st : ServerState) (roomId : String) : List Evt :=
  match lookupA st.typingRooms roomId with
  | none => []
  | some room =>
    let leaderboard := sortByCmp leaderboardCmp ((room.users.map Prod.snd).map toEntry)
    [Evt.typingUsersUpdate roomId room.users.length,
     Evt.leaderboardUpdate roomId leaderboard]

/-- Function flagUser (server.js lines 100-111), action on the flags array:
append the reason if absent (push appends at the end); the caller also sets
isFlagged. -/
def pushFlag (flags : List String) (reason : String) : List String :=
  if reason ∈ flags then flags else flags ++ [reason]

/-- Payload of a typing-update event: value with its typeof-string check,
the isPaste hint coerced to a truth value, and delta with its typeof-number
check. -/
structure UpdatePayload where
  value : Option String
  isPaste : Bool
  delta : Option Int
  deriving DecidableEq, Repr

/-- Result of the per-user part of handleTypingUpdate: the mutated
participant plus whether the completion branch and the time-up branch fired
(each branch emits its events in the wrapper). -/
structure UpdateResult where
  user : Participant
  finished : Bool
  timedOut : Bool
  deriving DecidableEq, Repr

/-- Per-user body of handleTypingUpdate (server.js lines 302-352), the part
after the terminal-state guard: clamp the input, lazily start the personal
clock, compute the expiry and the deltas, apply the three anti-cheat checks,
recompute the score fields, then run the completion check and the time-up
check.  timeDelta is never null because the join handler always initialises
lastUpdateAt, so the timeDelta === null disjunct of the source is vacuous;
the floating-point rate Math.abs(lengthDelta) / (timeDelta / 1000) > 15 is
written as the exact integer inequality 15 * timeDelta < 1000 * |lengthDelta|. -/
def typingUpdateCore (text : String) (user : Participant) (payload : UpdatePayload)
    (now : Nat) : UpdateResult :=
  let rawValue := payload.value.getD ""
  let safeValue := jsSlice rawValue (text.length + 200)
  let previousLength := user.lastInputLength
  let startedAt1 :=
    if optTruthy user.startedAt then user.startedAt else some now
  let expiresAt1 :=
    if optTruthy user.startedAt then user.expiresAt
    else some (now + TYPING_TIME_LIMIT_MS)
  let timeRemaining : Int :=
    if optTruthy expiresAt1 then (expiresAt1.getD 0 : Int) - (now : Int)
    else (TYPING_TIME_LIMIT_MS : Int)
  let expiredThisUpdate := timeRemaining ≤ 0
  let lengthDelta : Int := (safeValue.length : Int) - (previousLength : Int)
  let timeDelta : Int := (now : Int) - (user.lastUpdateAt : Int)
  let pasteFlagged :=
    (payload.isPaste = true ∧ 10 ≤ lengthDelta) ∨
      (payload.isPaste = false ∧ 10 ≤ lengthDelta ∧ timeDelta < 400)
  let flags1 := if pasteFlagged then pushFlag user.flags "paste-detected" else user.flags
  let speedFlagged := 0 < timeDelta ∧ 15 * timeDelta < 1000 * (lengthDelta.natAbs : Int)
  let flags2 := if speedFlagged then pushFlag flags1 "speed-warning" else flags1
  let deltaFlagged : Bool :=
    match payload.delta with
    | some d => decide (10 ≤ d)
    | none => false
  let flags3 := if deltaFlagged then pushFlag flags2 "paste-detected" else flags2
  let isFlagged1 :=
    if pasteFlagged ∨ speedFlagged ∨ deltaFlagged = true then true
    else user.isFlagged
  let r := computeScore text safeValue
  let finished := user.isCompleted = false ∧ text.length ≤ r.typedLength ∧ 0 < text.length
  let timedOut := expiredThisUpdate ∧ user.isTimeUp = false
  { user :=
      { socketId := user.socketId
        username := user.username
        score := r.score
        typedLength := r.typedLength
        correctChars := r.correctChars
        lastInputLength := r.typedLength
        lastInputValue := safeValue
        lastUpdateAt := now
        isCompleted := if finished then true else user.isCompleted
        completionTime := if finished then some now else user.completionTime
        flags := flags3
        isFlagged := isFlagged1
        startedAt := startedAt1
        expiresAt := expiresAt1
        isTimeUp := if timedOut then true else user.isTimeUp }
    finished := decide finished
    timedOut := decide timedOut }

/-- Function handleTypingUpdate (server.js lines 284-355): resolve the typing
room of the sender, drop unknown or terminal participants, run the per-user
body, store the mutated participant and emit the completion notice, the
time-up notices and the refreshed room state. -/
def handleTypingUpdate (st : ServerState) (sock : String) (payload : UpdatePayload)
    (now : Nat) : ServerState × List Evt :=
  match lookupA st.typingSocketRoomMap sock with
  | none => (st, [])
  | some roomId =>
    match lookupA st.typingRooms roomId with
    | none => ({ st with typingSocketRoomMap := eraseA st.typingSocketRoomMap sock }, [])
    | some room =>
      match lookupA room.users sock with
      | none => (st, [])
      | some user =>
        if user.isCompleted ∨ user.isTimeUp then (st, [])
        else
          let r := typingUpdateCore room.text user payload now
          let room' := { room with users := setA room.users sock r.user }
          let st' := { st with typingRooms := setA st.typingRooms roomId room' }
          let finishEvts :=
            if r.finished then [Evt.userFinished roomId r.user.username now] else []
          let timeEvts :=
            if r.timedOut then
              [Evt.typingTimeup sock roomId r.user.username,
               Evt.userTimeup roomId sock r.user.username]
            else []
          (st', finishEvts ++ timeEvts ++ emitTypingRoomState st' roomId)

/-- Payload of a join-typing-room event. -/
structure JoinTypingPayload where
  roomId : Option String
  username : Option String
  deriving DecidableEq, Repr

/-- Function handleJoinTypingRoom (server.js lines 237-282): validate the
room id, the room and the username, then create or re-attach the participant
(preserving prior score, flags and completion state), bind the typing map and
emit the prompt and the refreshed room state. -/
def handleJoinTypingRoom (st : ServerState) (sock : String)
    (payload : JoinTypingPayload) (now : Nat) : ServerState × List Evt :=
  let roomId := normalizeRoomId payload.roomId
  if roomId = "" then (st, [Evt.typingRoomError sock "Room ID is required"])
  else
    match lookupA st.typingRooms roomId with
    | none => (st, [Evt.typingRoomError sock "Typing room not found"])
    | some room =>
      match sanitizeUsername payload.username with
      | none =>
        (st, [Evt.typingRoomError sock
          "Provide a valid name (3-15 characters, letters/numbers/space/-/_)"])
      | some username =>
        let existingUser := lookupA room.users sock
        let newUser : Participant :=
          { socketId := sock
            username := username
            score := (existingUser.map Participant.score).getD 0
            typedLength := (existingUser.map Participant.typedLength).getD 0
            correctChars := (existingUser.map Participant.correctChars).getD 0
            lastInputLength := (existingUser.map Participant.lastInputLength).getD 0
            lastInputValue := (existingUser.map Participant.lastInputValue).getD ""
            lastUpdateAt := now
            isCompleted := (existingUser.map Participant.isCompleted).getD false
            completionTime := jsOrNull ((existingUser.map Participant.completionTime).getD none)
            flags := (existingUser.map Participant.flags).getD []
            isFlagged := (existingUser.map Participant.isFlagged).getD false
            startedAt := jsOrNull ((existingUser.map Participant.startedAt).getD none)
            expiresAt := jsOrNull ((existingUser.map Participant.expiresAt).getD none)
            isTimeUp := (existingUser.map Participant.isTimeUp).getD false }
        let room' := { room with users := setA room.users sock newUser }
        let st' := { st with
          typingRooms := setA st.typingRooms roomId room'
          typingSocketRoomMap := setA st.typingSocketRoomMap sock roomId }
        (st',
          Evt.typingRoomReady sock roomId room.text TYPING_TIME_LIMIT_SECONDS ::
            emitTypingRoomState st' roomId)

/-- Function resolveTypingContext (server.js lines 357-367). -/
def resolveTypingContext (st : ServerState) (sock : String)
    (roomIdOverride : Option String) : Option (String × TypingRoom) :=
  let roomId? : Option String :=
    if jsStrFalsy roomIdOverride then lookupA st.typingSocketRoomMap sock
    else roomIdOverride
  if jsStrFalsy roomId? then none
  else
    match lookupA st.typingRooms (roomId?.getD "") with
    | none => none
    | some room => some (roomId?.getD "", room)

/-- Function handleJoinTypingVoice (server.js lines 369-396): require a
resolvable typing room and membership in its participants, overwrite the
voice entry with a fresh joinedAt, return the other voice participants to the
caller, and broadcast voice-user-joined only when the entry was absent. -/
def handleJoinTypingVoice (st : ServerState) (sock : String) (now : Nat) :
    ServerState × List Evt :=
  match resolveTypingContext st sock none with
  | none => (st, [Evt.voiceError sock "Join the typing room before enabling voice chat."])
  | some (roomId, room) =>
    match lookupA room.users sock with
    | none => (st, [Evt.voiceError sock "Join the typing room before enabling voice chat."])
    | some user =>
      let wasAlreadyPresent := (lookupA room.voiceParticipants sock).isSome
      let vps' := setA room.voiceParticipants sock
        { socketId := sock, username := user.username, joinedAt := now }
      let peers := (vps'.map Prod.snd).filter (fun p => p.socketId ≠ sock)
      let room' := { room with voiceParticipants := vps' }
      let st' := { st with typingRooms := setA st.typingRooms roomId room' }
      (st',
        Evt.voiceParticipants sock roomId peers ::
          (if wasAlreadyPresent then []
           else [Evt.voiceUserJoined roomId sock sock user.username]))

/-- Payload of the typing-voice signaling events: the target socket id plus
the opaque offer, answer and candidate fields forwarded verbatim. -/
structure SignalPayload where
  targetId : Option String
  offer : Option String
  answer : Option String
  candidate : Option String
  deriving DecidableEq, Repr

/-- Function forwardTypingVoiceSignal (server.js lines 415-430): drop when the
target id is falsy, when the sender has no typing room, or when the target
does not resolve to the same typing room; otherwise deliver the payload to
the target tagged with the sender's id. -/
def forwardTypingVoiceSignal (st : ServerState) (sock : String) (eventName : String)
    (payload : SignalPayload) : List Evt :=
  if jsStrFalsy payload.targetId then []
  else
    let targetId := payload.targetId.getD ""
    let sourceRoomId := lookupA st.typingSocketRoomMap sock
    if jsStrFalsy sourceRoomId then []
    else if lookupA st.typingSocketRoomMap targetId ≠ sourceRoomId then []
    else
      [Evt.signal targetId eventName sock payload.offer payload.answer payload.candidate]

/-- Canvas-mode offer handler (server.js lines 467-472): forwards to any
truthy target whenever the offer payload is present; consults no room map. -/
def onOffer (st : ServerState) (sock : String) (targetId : Option String)
    (offer : Option String) : List Evt :=
  let _ := st
  if jsStrFalsy targetId ∨ offer = none then []
  else [Evt.signal (targetId.getD "") "offer" sock offer none none]

/-- Canvas-mode answer handler (server.js lines 474-479); consults no room map. -/
def onAnswer (st : ServerState) (sock : String) (targetId : Option String)
    (answer : Option String) : List Evt :=
  let _ := st
  if jsStrFalsy targetId ∨ answer = none then []
  else [Evt.signal (targetId.getD "") "answer" sock none answer none]

/-- Canvas-mode ice-candidate handler (server.js lines 481-486); consults no
room map. -/
def onIceCandidate (st : ServerState) (sock : String) (targetId : Option String)
    (candidate : Option String) : List Evt :=
  let _ := st
  if jsStrFalsy targetId ∨ candidate = none then []
  else [Evt.signal (targetId.getD "") "ice-candidate" sock none none candidate]

/-- Result record of removeSocketFromRoom (server.js lines 151-174). -/
structure RemovalResult where
  roomId : String
  remainingUsers : Nat
  deleted : Bool
  deriving DecidableEq, Repr

/-- Function removeSocketFromRoom (server.js lines 151-174): unbind the
registry entry, pull the socket from the durable users array, and delete the
record when the array empties. -/
def removeSocketFromRoom (st : ServerState) (sock : String) :
    ServerState × Option RemovalResult :=
  match lookupA st.socketRoomMap sock with
  | none => (st, none)
  | some roomId =>
    let st1 := { st with socketRoomMap := eraseA st.socketRoomMap sock }
    match lookupA st1.rooms roomId with
    | none => (st1, some { roomId := roomId, remainingUsers := 0, deleted := true })
    | some room =>
      let users' := room.users.filter (fun id => id ≠ sock)
      if users'.length = 0 then
        ({ st1 with rooms := eraseA st1.rooms roomId },
         some { roomId := roomId, remainingUsers := 0, deleted := true })
      else
        ({ st1 with rooms := setA st1.rooms roomId { room with users := users' } },
         some { roomId := roomId, remainingUsers := users'.length, deleted := false })

/-- Function handleLeaveRoom (server.js lines 223-235). -/
def handleLeaveRoom (st : ServerState) (sock : String) : ServerState × List Evt :=
  match lookupA st.socketRoomMap sock with
  | none => (st, [])
  | some roomId =>
    let r := removeSocketFromRoom st sock
    match r.2 with
    | none => (r.1, [])
    | some removal =>
      (r.1,
        [Evt.userLeft roomId sock sock,
         Evt.userCountUpdate roomId removal.remainingUsers])

/-- Function handleJoinRoom (server.js lines 186-221): an empty normalized id
is rejected up front; a socket bound to a different room is first run through
handleLeaveRoom; the durable find-and-update with addToSet either fails
(room-error, no further change) or adds the socket, after which the registry
is bound and the member list and count are emitted. -/
def handleJoinRoom (st : ServerState) (sock : String) (rawRoomId : Option String) :
    ServerState × List Evt :=
  let roomId := normalizeRoomId rawRoomId
  if roomId = "" then (st, [Evt.roomError sock "Room ID is required"])
  else
    let currentRoomId := lookupA st.socketRoomMap sock
    let leave :=
      match currentRoomId with
      | some c => if c ≠ roomId then handleLeaveRoom st sock else (st, [])
      | none => (st, [])
    let st1 := leave.1
    match lookupA st1.rooms roomId with
    | none => (st1, leave.2 ++ [Evt.roomError sock "Room not found"])
    | some room =>
      let users' := if sock ∈ room.users then room.users else room.users ++ [sock]
      let room' := { room with users := users', isActive := true }
      let st2 := { st1 with rooms := setA st1.rooms roomId room' }
      let existing := users'.filter (fun id => id ≠ sock)
      let st3 := { st2 with socketRoomMap := setA st2.socketRoomMap sock roomId }
      (st3,
        leave.2 ++
          [Evt.existingUsers sock roomId existing,
           Evt.userJoined roomId sock sock,
           Evt.userCountUpdate roomId users'.length])

/-! Theorems. -/

theorem scoreLoop_spec (typed : List Char) : ∀ target : List Char,
    scoreLoop typed target =
      ((matchCount typed target : Int) - (mismatchCount typed target : Int) -
        (excessCount typed target : Int), matchCount typed target) := by
  induction typed with
  | nil =>
    intro target
    simp [scoreLoop, matchCount, mismatchCount, excessCount]
  | cons a ts ih =>
    intro target
    cases target with
    | nil =>
      simp only [scoreLoop, matchCount, mismatchCount, excessCount, ih [],
        Prod.mk.injEq]
      refine ⟨?_, by trivial⟩
      push_cast
      omega
    | cons e gs =>
      by_cases h : a = e
      · simp only [scoreLoop, matchCount, mismatchCount, excessCount, ih gs,
          if_pos h, Prod.mk.injEq]
        refine ⟨?_, ?_⟩ <;> push_cast <;> omega
      · simp only [scoreLoop, matchCount, mismatchCount, excessCount, ih gs,
          if_neg h, Prod.mk.injEq]
        refine ⟨?_, ?_⟩ <;> push_cast <;> omega

/-- C3: the score is a deterministic function of the prompt and the typed
value; every matching position adds 1 (and counts a correct character), every
mismatched position inside the prompt subtracts 1, every typed position
beyond the prompt length subtracts 1, and in particular
score("cat","cat") = 3, score("cat","cap") = 1 and score("cat","cats") = 2. -/
theorem claim_C3_computeScore :
    (∀ prompt typed : String,
      (computeScore prompt typed).score =
        (matchCount typed.toList prompt.toList : Int) -
          (mismatchCount typed.toList prompt.toList : Int) -
          (excessCount typed.toList prompt.toList : Int) ∧
      (computeScore prompt typed).correctChars = matchCount typed.toList prompt.toList ∧
      (computeScore prompt typed).typedLength = typed.toList.length) ∧
    computeScore "cat" "cat" = { score := 3, correctChars := 3, typedLength := 3 } ∧
    computeScore "cat" "cap" = { score := 1, correctChars := 2, typedLength := 3 } ∧
    computeScore "cat" "cats" = { score := 2, correctChars := 3, typedLength := 4 } := by
  refine ⟨fun prompt typed => ?_, by decide, by decide, by decide⟩
  simp [computeScore, scoreLoop_spec]

theorem strCompare_neg (s t : String) : strCompare t s = - strCompare s t := by
  unfold strCompare
  rcases lt_trichotomy s t with h | h | h
  · rw [if_neg (asymm h), if_pos h, if_pos h]
    norm_num
  · subst h
    simp
  · rw [if_pos h, if_neg (asymm h), if_pos h]

theorem strCompare_eq_zero (s t : String) : strCompare s t = 0 ↔ s = t := by
  unfold strCompare
  rcases lt_trichotomy s t with h | h | h
  · rw [if_pos h]
    simp [ne_of_lt h]
  · subst h
    simp
  · rw [if_neg (asymm h), if_pos h]
    simp [(ne_of_lt h).symm]

theorem strCompare_lt_zero (s t : String) : strCompare s t < 0 ↔ s < t := by
  unfold strCompare
  rcases lt_trichotomy s t with h | h | h
  · rw [if_pos h]
    simp [h]
  · subst h
    simp
  · rw [if_neg (asymm h), if_pos h]
    simp [asymm h]

theorem leaderboardCmp_unfold (a b : LeaderboardEntry) :
    leaderboardCmp a b =
      if a.score = b.score then
        (if optTruthy a.completionTime then
          (if optTruthy b.completionTime then
            (a.completionTime.getD 0 : Int) - (b.completionTime.getD 0 : Int)
          else -1)
        else if optTruthy b.completionTime then 1
        else strCompare a.username b.username)
      else b.score - a.score := by
  unfold leaderboardCmp
  by_cases hs : a.score = b.score <;>
    by_cases hca : optTruthy a.completionTime = true <;>
    by_cases hcb : optTruthy b.completionTime = true <;>
    simp [hs, hca, hcb]

theorem leaderboardCmp_antisymm (a b : LeaderboardEntry) :
    leaderboardCmp b a = - leaderboardCmp a b := by
  rw [leaderboardCmp_unfold, leaderboardCmp_unfold]
  by_cases hs : a.score = b.score
  · rw [if_pos hs.symm, if_pos hs]
    by_cases hca : optTruthy a.completionTime = true <;>
      by_cases hcb : optTruthy b.completionTime = true
    · simp only [hca, hcb, if_true]
      omega
    · simp [hca, hcb]
    · simp [hca, hcb]
    · simp only [hca, hcb, Bool.false_eq_true, if_false]
      exact strCompare_neg a.username b.username
  · rw [if_neg (fun h => hs h.symm), if_neg hs]
    omega

theorem leaderboardCmp_eq_zero_iff (a b : LeaderboardEntry) :
    leaderboardCmp a b = 0 ↔
      a.score = b.score ∧
        ((optTruthy a.completionTime = true ∧ optTruthy b.completionTime = true ∧
            a.completionTime = b.completionTime) ∨
         (optTruthy a.completionTime = false ∧ optTruthy b.completionTime = false ∧
            a.username = b.username)) := by
  rw [leaderboardCmp_unfold]
  by_cases hs : a.score = b.score
  · rw [if_pos hs]
    by_cases hca : optTruthy a.completionTime = true
    · by_cases hcb : optTruthy b.completionTime = true
      · rw [if_pos hca, if_pos hcb]
        cases hac : a.completionTime with
        | none =>
          rw [hac] at hca
          simp [optTruthy] at hca
        | some ca =>
          cases hbc : b.completionTime with
          | none =>
            rw [hbc] at hcb
            simp [optTruthy] at hcb
          | some cb =>
            rw [hac] at hca
            rw [hbc] at hcb
            simp [hs, hca, hcb]
            omega
      · have hcb' : optTruthy b.completionTime = false := by
          simpa using hcb
        rw [if_pos hca, if_neg (by simp [hcb'])]
        simp [hs, hca, hcb']
    · have hca' : optTruthy a.completionTime = false := by
        simpa using hca
      rw [if_neg (by simp [hca'])]
      by_cases hcb : optTruthy b.completionTime = true
      · rw [if_pos hcb]
        simp [hs, hca', hcb]
      · have hcb' : optTruthy b.completionTime = false := by
          simpa using hcb
        rw [if_neg (by simp [hcb'])]
        simp [hs, hca', hcb', strCompare_eq_zero]
  · rw [if_neg hs]
    simp only [hs, false_and, iff_false]
    omega

/-- C2 counterexample: the claim asserts that for any two distinct
participants exactly one of {a before b, b before a} holds, even with
duplicated usernames; but for two distinct leaderboard entries with equal
score, no completion time and the same username the comparator returns 0 both
ways, so neither sorts strictly before the other. -/
theorem claim_C2_counterexample :
    let a : LeaderboardEntry :=
      { socketId := "s1", username := "Ann", score := 0, isCompleted := false,
        completionTime := none, flags := [], isFlagged := false,
        isTimeUp := false, startedAt := none, expiresAt := none }
    let b : LeaderboardEntry :=
      { socketId := "s2", username := "Ann", score := 0, isCompleted := false,
        completionTime := none, flags := [], isFlagged := false,
        isTimeUp := false, startedAt := none, expiresAt := none }
    a ≠ b ∧ leaderboardCmp a b = 0 ∧ leaderboardCmp b a = 0 ∧
      ¬ (leaderboardCmp a b < 0 ∨ leaderboardCmp b a < 0) := by
  refine ⟨by decide, ?_, ?_, ?_⟩ <;>
    simp [leaderboardCmp, strCompare, optTruthy, lt_self_iff_false]

/-- C2 amended: the comparator is antisymmetric in sign and yields a strict
total order on entries that are not tied, where a tie means equal score and
either equal present completion times or both completion times absent with
equal usernames; ties are possible between distinct participants (e.g.
duplicated usernames with equal scores and no completions), the comparator
then returns 0 both ways and the deterministic stable insertion sort keeps
tied entries in input order.  Away from ties the order agrees with score
descending, then completion time ascending with a present completion time
before an absent one, then username ascending. -/
theorem claim_C2_amended : ∀ a b : LeaderboardEntry,
    leaderboardCmp b a = - leaderboardCmp a b ∧
    (leaderboardCmp a b = 0 ↔
      a.score = b.score ∧
        ((optTruthy a.completionTime = true ∧ optTruthy b.completionTime = true ∧
            a.completionTime = b.completionTime) ∨
         (optTruthy a.completionTime = false ∧ optTruthy b.completionTime = false ∧
            a.username = b.username))) ∧
    (leaderboardCmp a b ≠ 0 ↔
      ((leaderboardCmp a b < 0 ∧ ¬ leaderboardCmp b a < 0) ∨
       (leaderboardCmp b a < 0 ∧ ¬ leaderboardCmp a b < 0))) ∧
    (b.score < a.score → leaderboardCmp a b < 0) ∧
    (a.score = b.score →
      optTruthy a.completionTime = true → optTruthy b.completionTime = true →
      (a.completionTime.getD 0 : Int) < (b.completionTime.getD 0 : Int) →
      leaderboardCmp a b < 0) ∧
    (a.score = b.score →
      optTruthy a.completionTime = true → optTruthy b.completionTime = false →
      leaderboardCmp a b < 0) ∧
    (a.score = b.score →
      optTruthy a.completionTime = false → optTruthy b.completionTime = false →
      a.username < b.username → leaderboardCmp a b < 0) := by
  intro a b
  refine ⟨leaderboardCmp_antisymm a b, leaderboardCmp_eq_zero_iff a b, ?_, ?_, ?_, ?_, ?_⟩
  · have h := leaderboardCmp_antisymm a b
    omega
  · intro hlt
    rw [leaderboardCmp_unfold, if_neg (by omega)]
    omega
  · intro hs hca hcb hct
    rw [leaderboardCmp_unfold, if_pos hs, if_pos hca, if_pos hcb]
    omega
  · intro hs hca hcb
    rw [leaderboardCmp_unfold, if_pos hs, if_pos hca, if_neg (by simp [hcb])]
    norm_num
  · intro hs hca hcb hu
    rw [leaderboardCmp_unfold, if_pos hs, if_neg (by simp [hca]),
      if_neg (by simp [hcb])]
    exact (strCompare_lt_zero a.username b.username).mpr hu

/-- C2 witness: the amended order facts applied at two concrete entries with
different scores. -/
theorem claim_C2_amended_witness :
    leaderboardCmp
      { socketId := "s1", username := "Ann", score := 5, isCompleted := false,
        completionTime := none, flags := [], isFlagged := false,
        isTimeUp := false, startedAt := none, expiresAt := none }
      { socketId := "s2", username := "Bo", score := 3, isCompleted := false,
        completionTime := none, flags := [], isFlagged := false,
        isTimeUp := false, startedAt := none, expiresAt := none } < 0 :=
  (claim_C2_amended _ _).2.2.2.1 (by norm_num)

/-- C1 counterexample: the claim asserts that canvas-mode signaling
(offer/answer/ice-candidate) is delivered only when sender and target resolve
to the same room; but the canvas handlers perform no room check at all, so an
offer from a connection bound to room AAAAAAAA is delivered to a connection
bound to the different room BBBBBBBB. -/
theorem claim_C1_counterexample :
    let st : ServerState :=
      { socketRoomMap := [("s1", "AAAAAAAA"), ("s2", "BBBBBBBB")]
        typingSocketRoomMap := []
        rooms := [("AAAAAAAA", { roomId := "AAAAAAAA", createdAt := 0, users := ["s1"], isActive := true }),
                  ("BBBBBBBB", { roomId := "BBBBBBBB", createdAt := 0, users := ["s2"], isActive := true })]
        typingRooms := [] }
    lookupA st.socketRoomMap "s1" = some "AAAAAAAA" ∧
    lookupA st.socketRoomMap "s2" = some "BBBBBBBB" ∧
    ("AAAAAAAA" : String) ≠ "BBBBBBBB" ∧
    onOffer st "s1" (some "s2") (some "sdp-offer") =
      [Evt.signal "s2" "offer" "s1" (some "sdp-offer") none none] := by
  refine ⟨by decide, by decide, by decide, ?_⟩
  decide

/-- C1 amended: typing-mode signaling (typing-voice-offer/answer/ice) is
delivered only when both sender and target currently resolve to the same
typing room and is silently dropped otherwise; the canvas-mode handlers
(offer/answer/ice-candidate), by contrast, consult no room mapping and
deliver to any truthy target id whenever the corresponding payload field is
present, regardless of the rooms of sender and target. -/
theorem claim_C1_amended :
    (∀ (st : ServerState) (sock eventName : String) (payload : SignalPayload)
       (e : Evt), e ∈ forwardTypingVoiceSignal st sock eventName payload →
       ∃ rid : String, rid ≠ "" ∧
         lookupA st.typingSocketRoomMap sock = some rid ∧
         lookupA st.typingSocketRoomMap (payload.targetId.getD "") = some rid ∧
         e = Evt.signal (payload.targetId.getD "") eventName sock
               payload.offer payload.answer payload.candidate) ∧
    (∀ (st : ServerState) (sock eventName : String) (payload : SignalPayload),
       lookupA st.typingSocketRoomMap sock ≠
           lookupA st.typingSocketRoomMap (payload.targetId.getD "") ∨
         lookupA st.typingSocketRoomMap sock = none →
       forwardTypingVoiceSignal st sock eventName payload = []) ∧
    (∀ (st : ServerState) (sock eventName : String) (payload : SignalPayload)
       (rid : String), rid ≠ "" → jsStrFalsy payload.targetId = false →
       lookupA st.typingSocketRoomMap sock = some rid →
       lookupA st.typingSocketRoomMap (payload.targetId.getD "") = some rid →
       forwardTypingVoiceSignal st sock eventName payload =
         [Evt.signal (payload.targetId.getD "") eventName sock
            payload.offer payload.answer payload.candidate]) ∧
    (∀ (st st' : ServerState) (sock : String) (targetId payload : Option String),
       onOffer st sock targetId payload = onOffer st' sock targetId payload ∧
       onAnswer st sock targetId payload = onAnswer st' sock targetId payload ∧
       onIceCandidate st sock targetId payload = onIceCandidate st' sock targetId payload) ∧
    (∀ (st : ServerState) (sock : String) (targetId payload : Option String),
       jsStrFalsy targetId = false → payload ≠ none →
       onOffer st sock targetId payload =
           [Evt.signal (targetId.getD "") "offer" sock payload none none] ∧
         onAnswer st sock targetId payload =
           [Evt.signal (targetId.getD "") "answer" sock none payload none] ∧
         onIceCandidate st sock targetId payload =
           [Evt.signal (targetId.getD "") "ice-candidate" sock none none payload]) := by
  refine ⟨?_, ?_, ?_, ?_, ?_⟩
  · intro st sock eventName payload e he
    unfold forwardTypingVoiceSignal at he
    by_cases hf : jsStrFalsy payload.targetId = true
    · rw [if_pos hf] at he
      simp at he
    · rw [if_neg hf] at he
      cases hsrc : lookupA st.typingSocketRoomMap sock with
      | none =>
        rw [hsrc] at he
        simp [jsStrFalsy] at he
      | some rid =>
        rw [hsrc] at he
        by_cases hrid : rid = ""
        · rw [if_pos (by simp [jsStrFalsy, hrid])] at he
          simp at he
        · rw [if_neg (by simp [jsStrFalsy, hrid])] at he
          by_cases htgt : lookupA st.typingSocketRoomMap (payload.targetId.getD "") = some rid
          · rw [if_neg (by simp [htgt])] at he
            simp at he
            exact ⟨rid, hrid, rfl, htgt, he⟩
          · rw [if_pos (by simp [htgt])] at he
            simp at he
  · intro st sock eventName payload hdiff
    unfold forwardTypingVoiceSignal
    by_cases hf : jsStrFalsy payload.targetId = true
    · rw [if_pos hf]
    · rw [if_neg hf]
      cases hsrc : lookupA st.typingSocketRoomMap sock with
      | none => rw [if_pos (by simp [jsStrFalsy])]
      | some rid =>
        by_cases hrid : rid = ""
        · rw [if_pos (by simp [jsStrFalsy, hrid])]
        · rw [if_neg (by simp [jsStrFalsy, hrid])]
          rcases hdiff with hdiff | hdiff
          · rw [if_pos (by rw [hsrc] at hdiff; exact Ne.symm hdiff)]
          · rw [hsrc] at hdiff
            exact absurd hdiff (by simp)
  · intro st sock eventName payload rid hrid hf hsrc htgt
    unfold forwardTypingVoiceSignal
    rw [if_neg (by simp [hf]), hsrc, if_neg (by simp [jsStrFalsy, hrid]),
      if_neg (by simp [htgt])]
  · intro st st' sock targetId payload
    refine ⟨rfl, rfl, rfl⟩
  · intro st sock targetId payload hf hp
    unfold onOffer onAnswer onIceCandidate
    rw [if_neg (by simp [hf, hp]), if_neg (by simp [hf, hp]),
      if_neg (by simp [hf, hp])]
    exact ⟨rfl, rfl, rfl⟩

/-- C1 witness: the amended drop guarantee applied at a concrete state where
the sender and the target of a typing-voice offer resolve to different typing
rooms: nothing is delivered. -/
theorem claim_C1_amended_witness :
    forwardTypingVoiceSignal
      { socketRoomMap := []
        typingSocketRoomMap := [("s1", "AAAAAAAA"), ("s2", "BBBBBBBB")]
        rooms := [], typingRooms := [] }
      "s1" "typing-voice-offer"
      { targetId := some "s2", offer := some "sdp", answer := none, candidate := none } =
      [] :=
  claim_C1_amended.2.1 _ _ _ _ (Or.inl (by decide))

/-- C8 counterexample: the claim asserts that a canvas join for an invalid or
missing room id causes no state change; but a join request for a well-formed
unknown room id from a socket currently bound to another room first runs the
implicit leave, so the requester loses its prior binding, is pulled from the
durable users set of its old room, and leave broadcasts are emitted next to
the error notice. -/
theorem claim_C8_counterexample :
    let st : ServerState :=
      { socketRoomMap := [("s1", "OLDROOM1")]
        typingSocketRoomMap := []
        rooms := [("OLDROOM1",
          { roomId := "OLDROOM1", createdAt := 0, users := ["s1", "s2"], isActive := true })]
        typingRooms := [] }
    let r := handleJoinRoom st "s1" (some "MISSINGX")
    lookupA st.rooms "MISSINGX" = none ∧
    r.1 ≠ st ∧
    lookupA r.1.socketRoomMap "s1" = none ∧
    lookupA r.1.rooms "OLDROOM1" =
      some { roomId := "OLDROOM1", createdAt := 0, users := ["s2"], isActive := true } ∧
    r.2 = [Evt.userLeft "OLDROOM1" "s1" "s1", Evt.userCountUpdate "OLDROOM1" 1,
           Evt.roomError "s1" "Room not found"] := by
  refine ⟨by decide, by decide, by decide, by decide, by decide⟩

/-- C8 amended: a join with a missing (empty after normalization) room id is
rejected with an error notice to the requester only and no state change; a
join with a well-formed but unknown room id is likewise rejected with an
error notice only and no state change provided the requester is not currently
bound to a different canvas room — if it is, the implicit leave first removes
it from that room before the join fails. -/
theorem claim_C8_amended : ∀ (st : ServerState) (sock : String) (raw : Option String),
    (normalizeRoomId raw = "" →
      handleJoinRoom st sock raw = (st, [Evt.roomError sock "Room ID is required"])) ∧
    (normalizeRoomId raw ≠ "" →
      lookupA st.rooms (normalizeRoomId raw) = none →
      (lookupA st.socketRoomMap sock = none ∨
       lookupA st.socketRoomMap sock = some (normalizeRoomId raw)) →
      handleJoinRoom st sock raw = (st, [Evt.roomError sock "Room not found"])) := by
  intro st sock raw
  constructor
  · intro h
    unfold handleJoinRoom
    rw [if_pos h]
  · intro hne hnf hcur
    unfold handleJoinRoom
    rw [if_neg hne]
    rcases hcur with hcur | hcur <;> simp [hcur, hnf]

/-- C8 witness: the amended guarantees applied at a concrete state: an empty
room id and an unknown room id from an unbound socket each produce only the
error notice and leave the state untouched. -/
theorem claim_C8_amended_witness :
    handleJoinRoom
        { socketRoomMap := [], typingSocketRoomMap := [], rooms := [], typingRooms := [] }
        "s1" (some "  ") =
      ({ socketRoomMap := [], typingSocketRoomMap := [], rooms := [], typingRooms := [] },
       [Evt.roomError "s1" "Room ID is required"]) ∧
    handleJoinRoom
        { socketRoomMap := [], typingSocketRoomMap := [], rooms := [], typingRooms := [] }
        "s1" (some "MISSINGX") =
      ({ socketRoomMap := [], typingSocketRoomMap := [], rooms := [], typingRooms := [] },
       [Evt.roomError "s1" "Room not found"]) :=
  ⟨(claim_C8_amended _ _ _).1 (by decide),
   (claim_C8_amended _ _ _).2 (by decide) (by decide) (Or.inl (by decide))⟩

theorem map_setA_of_lookup {α β : Type} (l : List (String × α)) (k : String) (v w : α)
    (f : String × α → β) (hl : lookupA l k = some v) (hf : f (k, w) = f (k, v)) :
    (setA l k w).map f = l.map f := by
  induction l with
  | nil => simp [lookupA] at hl
  | cons p rest ih =>
    obtain ⟨k', v'⟩ := p
    by_cases hk : k' = k
    · subst hk
      rw [lookupA, if_pos rfl] at hl
      rw [setA, if_pos rfl]
      simp only [List.map_cons, List.map]
      rw [hf, Option.some_inj.mp hl]
    · rw [lookupA, if_neg hk] at hl
      rw [setA, if_neg hk]
      simp only [List.map_cons]
      rw [ih hl]

/-- C9 counterexample: the claim asserts that enabling voice twice yields the
same peer-visible state as enabling once; but re-enabling overwrites the
voice entry's joinedAt with the current time, and joinedAt is part of the
participant objects later emitted to peers in voice-participants lists, so
the room state after two enables at times 1 and 2 differs from the state
after one enable at time 1. -/
theorem claim_C9_counterexample :
    let ann : Participant :=
      { socketId := "s1", username := "Ann", score := 0, typedLength := 0,
        correctChars := 0, lastInputLength := 0, lastInputValue := "",
        lastUpdateAt := 0, isCompleted := false, completionTime := none,
        flags := [], isFlagged := false, startedAt := none, expiresAt := none,
        isTimeUp := false }
    let room0 : TypingRoom :=
      { roomId := "ROOMAAAA", text := "cat", createdAt := 0,
        users := [("s1", ann)], voiceParticipants := [] }
    let st0 : ServerState :=
      { socketRoomMap := [], typingSocketRoomMap := [("s1", "ROOMAAAA")],
        rooms := [], typingRooms := [("ROOMAAAA", room0)] }
    let once := handleJoinTypingVoice st0 "s1" 1
    let twice := handleJoinTypingVoice once.1 "s1" 2
    twice.1 ≠ once.1 ∧
    (lookupA once.1.typingRooms "ROOMAAAA").map TypingRoom.voiceParticipants =
      some [("s1", { socketId := "s1", username := "Ann", joinedAt := 1 })] ∧
    (lookupA twice.1.typingRooms "ROOMAAAA").map TypingRoom.voiceParticipants =
      some [("s1", { socketId := "s1", username := "Ann", joinedAt := 2 })] := by
  refine ⟨by decide, by decide, by decide⟩

/-- C9 amended: enabling voice in a typing room requires the connection to be
a participant of that room, otherwise it errors with no state change; on
every enable the caller receives the list of all other current voice
participants, and the voice-joined broadcast goes to the rest of the room
only when the connection was not already voice-enabled; re-enabling is
idempotent only up to the entry's joinedAt timestamp: the voice-participant
key set, socket ids and usernames are unchanged, but joinedAt is overwritten
with the current time of the latest enable. -/
theorem claim_C9_amended :
    (∀ (st : ServerState) (sock : String) (now : Nat),
       resolveTypingContext st sock none = none →
       handleJoinTypingVoice st sock now =
         (st, [Evt.voiceError sock "Join the typing room before enabling voice chat."])) ∧
    (∀ (st : ServerState) (sock : String) (now : Nat) (rid : String) (room : TypingRoom),
       resolveTypingContext st sock none = some (rid, room) →
       lookupA room.users sock = none →
       handleJoinTypingVoice st sock now =
         (st, [Evt.voiceError sock "Join the typing room before enabling voice chat."])) ∧
    (∀ (st : ServerState) (sock : String) (now : Nat) (rid : String) (room : TypingRoom)
       (user : Participant),
       resolveTypingContext st sock none = some (rid, room) →
       lookupA room.users sock = some user →
       handleJoinTypingVoice st sock now =
         ({ st with typingRooms := setA st.typingRooms rid { room with
              voiceParticipants := setA room.voiceParticipants sock
                { socketId := sock, username := user.username, joinedAt := now } } },
          Evt.voiceParticipants sock rid
              (((setA room.voiceParticipants sock
                  { socketId := sock, username := user.username, joinedAt := now }).map
                    Prod.snd).filter (fun p => p.socketId ≠ sock)) ::
            (if (lookupA room.voiceParticipants sock).isSome then []
             else [Evt.voiceUserJoined rid sock sock user.username]))) ∧
    (∀ (l : List (String × VoiceParticipant)) (sock uname : String)
       (vp : VoiceParticipant) (now : Nat),
       lookupA l sock = some vp → vp.socketId = sock → vp.username = uname →
       (setA l sock { socketId := sock, username := uname, joinedAt := now }).map
           (fun kv => (kv.1, kv.2.socketId, kv.2.username)) =
         l.map (fun kv => (kv.1, kv.2.socketId, kv.2.username))) := by
  refine ⟨?_, ?_, ?_, ?_⟩
  · intro st sock now hres
    unfold handleJoinTypingVoice
    rw [hres]
  · intro st sock now rid room hres huser
    unfold handleJoinTypingVoice
    rw [hres]
    simp [huser]
  · intro st sock now rid room user hres huser
    unfold handleJoinTypingVoice
    rw [hres]
    simp [huser]
  · intro l sock uname vp now hl hsock huname
    refine map_setA_of_lookup l sock vp _ _ hl ?_
    simp [hsock, huname]

/-- C9 witness: the amended error guarantee applied at a concrete state where
the socket has no typing room: voice enable errors and changes nothing. -/
theorem claim_C9_amended_witness :
    handleJoinTypingVoice
        { socketRoomMap := [], typingSocketRoomMap := [], rooms := [], typingRooms := [] }
        "s1" 5 =
      ({ socketRoomMap := [], typingSocketRoomMap := [], rooms := [], typingRooms := [] },
       [Evt.voiceError "s1" "Join the typing room before enabling voice chat."]) :=
  claim_C9_amended.1 _ _ _ (by decide)

theorem handleTypingUpdate_terminal (st : ServerState) (sock : String)
    (payload : UpdatePayload) (now : Nat) (roomId : String) (room : TypingRoom)
    (user : Participant)
    (h1 : lookupA st.typingSocketRoomMap sock = some roomId)
    (h2 : lookupA st.typingRooms roomId = some room)
    (h3 : lookupA room.users sock = some user)
    (ht : user.isCompleted = true ∨ user.isTimeUp = true) :
    handleTypingUpdate st sock payload now = (st, []) := by
  unfold handleTypingUpdate
  rcases ht with h | h <;> simp [h1, h2, h3, h]

theorem handleTypingUpdate_run (st : ServerState) (sock : String)
    (payload : UpdatePayload) (now : Nat) (roomId : String) (room : TypingRoom)
    (user : Participant)
    (h1 : lookupA st.typingSocketRoomMap sock = some roomId)
    (h2 : lookupA st.typingRooms roomId = some room)
    (h3 : lookupA room.users sock = some user)
    (h4 : user.isCompleted = false) (h5 : user.isTimeUp = false) :
    handleTypingUpdate st sock payload now =
      ({ st with typingRooms := setA st.typingRooms roomId { room with
           users := setA room.users sock (typingUpdateCore room.text user payload now).user } },
       (if (typingUpdateCore room.text user payload now).finished = true then
          [Evt.userFinished roomId (typingUpdateCore room.text user payload now).user.username now]
        else []) ++
         (if (typingUpdateCore room.text user payload now).timedOut = true then
            [Evt.typingTimeup sock roomId (typingUpdateCore room.text user payload now).user.username,
             Evt.userTimeup roomId sock (typingUpdateCore room.text user payload now).user.username]
          else []) ++
         emitTypingRoomState
           { st with typingRooms := setA st.typingRooms roomId { room with
               users := setA room.users sock (typingUpdateCore room.text user payload now).user } }
           roomId) := by
  unfold handleTypingUpdate
  simp [h1, h2, h3, h4, h5]

/-- C4: once a participant is terminal (isCompleted or isTimeUp), every
subsequent typing-update for that participant is a no-op: the whole server
state is unchanged and no event at all is emitted for that update. -/
theorem claim_C4_terminal_noop :
    ∀ (st : ServerState) (sock : String) (payload : UpdatePayload) (now : Nat)
      (roomId : String) (room : TypingRoom) (user : Participant),
      lookupA st.typingSocketRoomMap sock = some roomId →
      lookupA st.typingRooms roomId = some room →
      lookupA room.users sock = some user →
      (user.isCompleted = true ∨ user.isTimeUp = true) →
      handleTypingUpdate st sock payload now = (st, []) :=
  fun _ _ _ _ _ _ _ h1 h2 h3 ht =>
    handleTypingUpdate_terminal _ _ _ _ _ _ _ h1 h2 h3 ht

/-- C4 witness: a completed participant's further update at a concrete state
leaves the state untouched and emits nothing. -/
theorem claim_C4_terminal_noop_witness :
    handleTypingUpdate
        { socketRoomMap := [], typingSocketRoomMap := [("s1", "ROOMAAAA")],
          rooms := [],
          typingRooms := [("ROOMAAAA",
            { roomId := "ROOMAAAA", text := "cat", createdAt := 0,
              users := [("s1",
                { socketId := "s1", username := "Ann", score := 3, typedLength := 3,
                  correctChars := 3, lastInputLength := 3, lastInputValue := "cat",
                  lastUpdateAt := 50, isCompleted := true, completionTime := some 50,
                  flags := [], isFlagged := false, startedAt := some 10,
                  expiresAt := some 60010, isTimeUp := false })],
              voiceParticipants := [] })] }
        "s1" { value := some "cats", isPaste := false, delta := none } 100 =
      ({ socketRoomMap := [], typingSocketRoomMap := [("s1", "ROOMAAAA")],
         rooms := [],
         typingRooms := [("ROOMAAAA",
           { roomId := "ROOMAAAA", text := "cat", createdAt := 0,
             users := [("s1",
               { socketId := "s1", username := "Ann", score := 3, typedLength := 3,
                 correctChars := 3, lastInputLength := 3, lastInputValue := "cat",
                 lastUpdateAt := 50, isCompleted := true, completionTime := some 50,
                 flags := [], isFlagged := false, startedAt := some 10,
                 expiresAt := some 60010, isTimeUp := false })],
             voiceParticipants := [] })] }, []) :=
  claim_C4_terminal_noop _ _ _ _ "ROOMAAAA"
    { roomId := "ROOMAAAA", text := "cat", createdAt := 0,
      users := [("s1",
        { socketId := "s1", username := "Ann", score := 3, typedLength := 3,
          correctChars := 3, lastInputLength := 3, lastInputValue := "cat",
          lastUpdateAt := 50, isCompleted := true, completionTime := some 50,
          flags := [], isFlagged := false, startedAt := some 10,
          expiresAt := some 60010, isTimeUp := false })],
      voiceParticipants := [] }
    { socketId := "s1", username := "Ann", score := 3, typedLength := 3,
      correctChars := 3, lastInputLength := 3, lastInputValue := "cat",
      lastUpdateAt := 50, isCompleted := true, completionTime := some 50,
      flags := [], isFlagged := false, startedAt := some 10,
      expiresAt := some 60010, isTimeUp := false }
    (by decide) (by decide) (by decide) (Or.inl (by decide))

theorem lookupA_setA_self {α : Type} (l : List (String × α)) (k : String) (v : α) :
    lookupA (setA l k v) k = some v := by
  induction l with
  | nil => simp [setA, lookupA]
  | cons p rest ih =>
    obtain ⟨k', v'⟩ := p
    by_cases hk : k' = k
    · subst hk
      simp [setA, lookupA]
    · simp [setA, lookupA, hk, ih]

theorem optTruthy_some (n : Nat) : optTruthy (some n) = (n != 0) := rfl

/-- C5: a participant's startedAt and expiresAt are set on and only on their
first typing-update (never on join), with expiresAt = startedAt + the
60-second limit; the first update itself can never time out, and reaching the
deadline on or before a subsequent update makes the participant TimedOut
exactly once, with a notice to the participant and a notice to the rest of
the room. -/
theorem claim_C5_personal_clock :
    (∀ (st : ServerState) (sock : String) (payload : JoinTypingPayload) (now : Nat)
       (room : TypingRoom) (uname : String),
       normalizeRoomId payload.roomId ≠ "" →
       lookupA st.typingRooms (normalizeRoomId payload.roomId) = some room →
       sanitizeUsername payload.username = some uname →
       ∃ room' : TypingRoom,
         lookupA (handleJoinTypingRoom st sock payload now).1.typingRooms
             (normalizeRoomId payload.roomId) = some room' ∧
         (lookupA room'.users sock).map Participant.startedAt =
           some (jsOrNull (((lookupA room.users sock).map Participant.startedAt).getD none)) ∧
         (lookupA room'.users sock).map Participant.expiresAt =
           some (jsOrNull (((lookupA room.users sock).map Participant.expiresAt).getD none))) ∧
    (∀ (text : String) (user : Participant) (payload : UpdatePayload) (now : Nat),
       optTruthy user.startedAt = false →
       (typingUpdateCore text user payload now).user.startedAt = some now ∧
       (typingUpdateCore text user payload now).user.expiresAt =
         some (now + TYPING_TIME_LIMIT_MS) ∧
       (typingUpdateCore text user payload now).timedOut = false ∧
       (typingUpdateCore text user payload now).user.isTimeUp = user.isTimeUp) ∧
    (∀ (text : String) (user : Participant) (payload : UpdatePayload) (now : Nat),
       optTruthy user.startedAt = true →
       (typingUpdateCore text user payload now).user.startedAt = user.startedAt ∧
       (typingUpdateCore text user payload now).user.expiresAt = user.expiresAt) ∧
    (∀ (st : ServerState) (sock : String) (payload : UpdatePayload) (now : Nat)
       (roomId : String) (room : TypingRoom) (user : Participant) (e : Nat),
       lookupA st.typingSocketRoomMap sock = some roomId →
       lookupA st.typingRooms roomId = some room →
       lookupA room.users sock = some user →
       user.isCompleted = false → user.isTimeUp = false →
       optTruthy user.startedAt = true → user.expiresAt = some e → 0 < e →
       (e : Int) ≤ (now : Int) →
       (typingUpdateCore room.text user payload now).user.isTimeUp = true ∧
       Evt.typingTimeup sock roomId user.username ∈
         (handleTypingUpdate st sock payload now).2 ∧
       Evt.userTimeup roomId sock user.username ∈
         (handleTypingUpdate st sock payload now).2) ∧
    (∀ (st : ServerState) (sock : String) (payload : UpdatePayload) (now : Nat)
       (roomId : String) (room : TypingRoom) (user : Participant),
       lookupA st.typingSocketRoomMap sock = some roomId →
       lookupA st.typingRooms roomId = some room →
       lookupA room.users sock = some user →
       user.isTimeUp = true →
       handleTypingUpdate st sock payload now = (st, [])) := by
  refine ⟨?_, ?_, ?_, ?_, ?_⟩
  · intro st sock payload now room uname hrid hroom huname
    unfold handleJoinTypingRoom
    rw [if_neg hrid, hroom, huname]
    refine ⟨_, lookupA_setA_self _ _ _, ?_, ?_⟩ <;>
      simp [lookupA_setA_self]
  · intro text user payload now h
    refine ⟨?_, ?_, ?_, ?_⟩ <;>
      simp [typingUpdateCore, h, optTruthy_some, TYPING_TIME_LIMIT_MS,
        TYPING_TIME_LIMIT_SECONDS]
  · intro text user payload now h
    constructor <;> simp [typingUpdateCore, h]
  · intro st sock payload now roomId room user e h1 h2 h3 hc ht hs he he0 hexp
    have he0' : (e != 0) = true := by
      simp only [bne_iff_ne, ne_eq]
      omega
    have hto : (typingUpdateCore room.text user payload now).timedOut = true := by
      simp [typingUpdateCore, hs, he, ht, optTruthy_some, he0']
      omega
    have hup : (typingUpdateCore room.text user payload now).user.isTimeUp = true := by
      simp [typingUpdateCore, hs, he, ht, optTruthy_some, he0']
      omega
    have huname : (typingUpdateCore room.text user payload now).user.username =
        user.username := by
      simp [typingUpdateCore]
    refine ⟨hup, ?_, ?_⟩ <;>
      rw [handleTypingUpdate_run st sock payload now roomId room user h1 h2 h3 hc ht] <;>
      simp [hto, huname]
  · intro st sock payload now roomId room user h1 h2 h3 ht
    exact handleTypingUpdate_terminal st sock payload now roomId room user h1 h2 h3
      (Or.inr ht)

/-- C5 witness: the first update of a fresh participant at time 100 starts
the clock at 100 with the deadline 60 seconds later and does not time out. -/
theorem claim_C5_personal_clock_witness :
    let u : Participant :=
      { socketId := "s1", username := "Ann", score := 0, typedLength := 0,
        correctChars := 0, lastInputLength := 0, lastInputValue := "",
        lastUpdateAt := 0, isCompleted := false, completionTime := none,
        flags := [], isFlagged := false, startedAt := none, expiresAt := none,
        isTimeUp := false }
    let p : UpdatePayload := { value := some "c", isPaste := false, delta := none }
    (typingUpdateCore "cat" u p 100).user.startedAt = some 100 ∧
    (typingUpdateCore "cat" u p 100).user.expiresAt = some (100 + TYPING_TIME_LIMIT_MS) ∧
    (typingUpdateCore "cat" u p 100).timedOut = false ∧
    (typingUpdateCore "cat" u p 100).user.isTimeUp = false :=
  claim_C5_personal_clock.2.1 "cat" _ _ 100 (by decide)

/-- C6: a participant enters Completed exactly once, at the first update on
which the typed length reaches the full prompt length of a nonempty prompt;
at that instant completionTime is recorded and a completion notice is
broadcast to the room; for a prompt of length 0 no participant can ever
become Completed because the completion check requires prompt length > 0. -/
theorem claim_C6_completion :
    (∀ (text : String) (user : Participant) (payload : UpdatePayload) (now : Nat),
       user.isCompleted = false →
       ((typingUpdateCore text user payload now).user.isCompleted = true ↔
         (text.length ≤
             (computeScore text
               (jsSlice (payload.value.getD "") (text.length + 200))).typedLength ∧
           0 < text.length)) ∧
       ((typingUpdateCore text user payload now).finished = true ↔
         (typingUpdateCore text user payload now).user.isCompleted = true) ∧
       ((typingUpdateCore text user payload now).finished = true →
         (typingUpdateCore text user payload now).user.completionTime = some now)) ∧
    (∀ (text : String) (user : Participant) (payload : UpdatePayload) (now : Nat),
       text.length = 0 →
       (typingUpdateCore text user payload now).user.isCompleted = user.isCompleted ∧
       (typingUpdateCore text user payload now).finished = false) ∧
    (∀ (st : ServerState) (sock : String) (payload : UpdatePayload) (now : Nat)
       (roomId : String) (room : TypingRoom) (user : Participant),
       lookupA st.typingSocketRoomMap sock = some roomId →
       lookupA st.typingRooms roomId = some room →
       lookupA room.users sock = some user →
       user.isCompleted = false → user.isTimeUp = false →
       (typingUpdateCore room.text user payload now).finished = true →
       Evt.userFinished roomId user.username now ∈
         (handleTypingUpdate st sock payload now).2) ∧
    (∀ (st : ServerState) (sock : String) (payload : UpdatePayload) (now : Nat)
       (roomId : String) (room : TypingRoom) (user : Participant),
       lookupA st.typingSocketRoomMap sock = some roomId →
       lookupA st.typingRooms roomId = some room →
       lookupA room.users sock = some user →
       user.isCompleted = true →
       handleTypingUpdate st sock payload now = (st, [])) := by
  refine ⟨?_, ?_, ?_, ?_⟩
  · intro text user payload now h
    refine ⟨?_, ?_, ?_⟩
    · simp [typingUpdateCore, h]
    · simp [typingUpdateCore, h]
    · intro hf
      simp [typingUpdateCore, h] at hf ⊢
      simp [hf.1, hf.2]
      exact fun h0 => absurd h0 (by omega)
  · intro text user payload now hlen
    constructor <;> simp [typingUpdateCore, hlen]
  · intro st sock payload now roomId room user h1 h2 h3 hc ht hf
    have huname : (typingUpdateCore room.text user payload now).user.username =
        user.username := by
      simp [typingUpdateCore]
    rw [handleTypingUpdate_run st sock payload now roomId room user h1 h2 h3 hc ht]
    simp [hf, huname]
  · intro st sock payload now roomId room user h1 h2 h3 hc
    exact handleTypingUpdate_terminal st sock payload now roomId room user h1 h2 h3
      (Or.inl hc)

/-- C6 witness: Ann types the whole 3-character prompt at time 100 and her
completion time is recorded as 100. -/
theorem claim_C6_completion_witness :
    let u : Participant :=
      { socketId := "s1", username := "Ann", score := 0, typedLength := 0,
        correctChars := 0, lastInputLength := 0, lastInputValue := "",
        lastUpdateAt := 0, isCompleted := false, completionTime := none,
        flags := [], isFlagged := false, startedAt := none, expiresAt := none,
        isTimeUp := false }
    let p : UpdatePayload := { value := some "cat", isPaste := false, delta := none }
    (typingUpdateCore "cat" u p 100).user.completionTime = some 100 :=
  (claim_C6_completion.1 "cat" _ _ 100 (by decide)).2.2 (by decide)

theorem pushFlag_mem (flags : List String) (r s : String) :
    s ∈ pushFlag flags r ↔ s ∈ flags ∨ s = r := by
  unfold pushFlag
  by_cases h : r ∈ flags
  · rw [if_pos h]
    constructor
    · exact Or.inl
    · rintro (hs | rfl)
      · exact hs
      · exact h
  · rw [if_neg h]
    simp

theorem pushFlag_append (flags : List String) (r : String) :
    ∃ extra, pushFlag flags r = flags ++ extra := by
  unfold pushFlag
  by_cases h : r ∈ flags
  · exact ⟨[], by simp [h]⟩
  · exact ⟨[r], by simp [h]⟩

theorem mem_pushFlag_ite (l : List String) (r s : String) (c : Prop) [Decidable c] :
    s ∈ (if c then pushFlag l r else l) ↔ s ∈ l ∨ (c ∧ s = r) := by
  by_cases hc : c
  · simp [hc, pushFlag_mem]
  · simp [hc]

theorem pushFlag_ite_extends (l l' : List String) (r : String) (c : Prop) [Decidable c]
    (h : ∃ x, l' = l ++ x) : ∃ x, (if c then pushFlag l' r else l') = l ++ x := by
  obtain ⟨x, hx⟩ := h
  by_cases hc : c
  · obtain ⟨y, hy⟩ := pushFlag_append l' r
    exact ⟨x ++ y, by rw [if_pos hc, hy, hx, List.append_assoc]⟩
  · exact ⟨x, by rw [if_neg hc, hx]⟩

/-- C7: a paste-detected flag is added on an update exactly when (a) the
caller hints a paste and the length delta is at least 10, or (b) there is no
paste hint but the length delta is at least 10 and less than 400ms elapsed
since the previous update, or (c) the caller reports an explicit delta of at
least 10; a speed-warning flag is added exactly when the character rate
|length delta| per elapsed second exceeds 15 (positive elapsed time); flags
are append-only and survive rejoins. -/
theorem claim_C7_flags :
    (∀ (text : String) (user : Participant) (payload : UpdatePayload) (now : Nat),
      ("paste-detected" ∈ (typingUpdateCore text user payload now).user.flags ↔
        ("paste-detected" ∈ user.flags ∨
         (payload.isPaste = true ∧
           10 ≤ ((jsSlice (payload.value.getD "") (text.length + 200)).length : Int) -
             (user.lastInputLength : Int)) ∨
         (payload.isPaste = false ∧
           10 ≤ ((jsSlice (payload.value.getD "") (text.length + 200)).length : Int) -
             (user.lastInputLength : Int) ∧
           (now : Int) - (user.lastUpdateAt : Int) < 400) ∨
         (∃ d : Int, payload.delta = some d ∧ 10 ≤ d))) ∧
      ("speed-warning" ∈ (typingUpdateCore text user payload now).user.flags ↔
        ("speed-warning" ∈ user.flags ∨
         (0 < (now : Int) - (user.lastUpdateAt : Int) ∧
           15 * ((now : Int) - (user.lastUpdateAt : Int)) <
             1000 * ((((jsSlice (payload.value.getD "") (text.length + 200)).length : Int) -
               (user.lastInputLength : Int)).natAbs : Int))))) ∧
    (∀ (text : String) (user : Participant) (payload : UpdatePayload) (now : Nat),
      ∃ extra, (typingUpdateCore text user payload now).user.flags = user.flags ++ extra) ∧
    (∀ (st : ServerState) (sock : String) (payload : JoinTypingPayload) (now : Nat)
       (room : TypingRoom) (uname : String),
       normalizeRoomId payload.roomId ≠ "" →
       lookupA st.typingRooms (normalizeRoomId payload.roomId) = some room →
       sanitizeUsername payload.username = some uname →
       ∃ room' : TypingRoom,
         lookupA (handleJoinTypingRoom st sock payload now).1.typingRooms
             (normalizeRoomId payload.roomId) = some room' ∧
         (lookupA room'.users sock).map Participant.flags =
           some (((lookupA room.users sock).map Participant.flags).getD [])) := by
  refine ⟨?_, ?_, ?_⟩
  · intro text user payload now
    constructor <;>
      rcases hd : payload.delta with _ | d <;>
        simp only [typingUpdateCore, hd] <;>
        (simp [mem_pushFlag_ite]; try tauto)
  · intro text user payload now
    simp only [typingUpdateCore]
    refine pushFlag_ite_extends _ _ _ _ ?_
    refine pushFlag_ite_extends _ _ _ _ ?_
    refine pushFlag_ite_extends _ _ _ _ ?_
    exact ⟨[], by simp⟩
  · intro st sock payload now room uname hrid hroom huname
    unfold handleJoinTypingRoom
    rw [if_neg hrid, hroom, huname]
    refine ⟨_, lookupA_setA_self _ _ _, ?_⟩
    simp [lookupA_setA_self]

/-- C7 witness: a silent 10-character burst 100ms after the previous update
is flagged as paste-detected (and the flag list grew from the empty list). -/
theorem claim_C7_flags_witness :
    let u : Participant :=
      { socketId := "s1", username := "Ann", score := 0, typedLength := 0,
        correctChars := 0, lastInputLength := 0, lastInputValue := "",
        lastUpdateAt := 0, isCompleted := false, completionTime := none,
        flags := [], isFlagged := false, startedAt := none, expiresAt := none,
        isTimeUp := false }
    let p : UpdatePayload := { value := some "0123456789", isPaste := false, delta := none }
    "paste-detected" ∈ (typingUpdateCore "cat" u p 100).user.flags :=
  (claim_C7_flags.1 "cat" _ _ 100).1.mpr
    (Or.inr (Or.inr (Or.inl ⟨by decide, by decide, by decide⟩)))

/-- C10: when a typing-update arrives after the participant's expiresAt but
before they are terminal, the input is still fully processed before TimedOut
is applied: the score fields are recomputed from it, the completion check
still runs (so the participant can become Completed and TimedOut on the same
update), and when they complete, the completion broadcast is emitted next to
the time-up notices. -/
theorem claim_C10_late_input :
    ∀ (st : ServerState) (sock : String) (payload : UpdatePayload) (now : Nat)
      (roomId : String) (room : TypingRoom) (user : Participant) (e : Nat),
      lookupA st.typingSocketRoomMap sock = some roomId →
      lookupA st.typingRooms roomId = some room →
      lookupA room.users sock = some user →
      user.isCompleted = false → user.isTimeUp = false →
      optTruthy user.startedAt = true → user.expiresAt = some e → 0 < e →
      (e : Int) ≤ (now : Int) →
      ((typingUpdateCore room.text user payload now).user.score =
        (computeScore room.text
          (jsSlice (payload.value.getD "") (room.text.length + 200))).score) ∧
      ((typingUpdateCore room.text user payload now).user.correctChars =
        (computeScore room.text
          (jsSlice (payload.value.getD "") (room.text.length + 200))).correctChars) ∧
      ((typingUpdateCore room.text user payload now).user.typedLength =
        (computeScore room.text
          (jsSlice (payload.value.getD "") (room.text.length + 200))).typedLength) ∧
      ((typingUpdateCore room.text user payload now).user.lastInputValue =
        jsSlice (payload.value.getD "") (room.text.length + 200)) ∧
      (typingUpdateCore room.text user payload now).user.isTimeUp = true ∧
      (typingUpdateCore room.text user payload now).timedOut = true ∧
      ((typingUpdateCore room.text user payload now).user.isCompleted = true ↔
        (room.text.length ≤
            (computeScore room.text
              (jsSlice (payload.value.getD "") (room.text.length + 200))).typedLength ∧
          0 < room.text.length)) ∧
      ((typingUpdateCore room.text user payload now).finished = true →
        (typingUpdateCore room.text user payload now).user.completionTime = some now ∧
        Evt.userFinished roomId user.username now ∈
          (handleTypingUpdate st sock payload now).2 ∧
        Evt.typingTimeup sock roomId user.username ∈
          (handleTypingUpdate st sock payload now).2) := by
  intro st sock payload now roomId room user e h1 h2 h3 hc ht hs he he0 hexp
  have he0' : (e != 0) = true := by
    simp only [bne_iff_ne, ne_eq]
    omega
  have hto : (typingUpdateCore room.text user payload now).timedOut = true := by
    simp [typingUpdateCore, hs, he, ht, optTruthy_some, he0']
    omega
  have hup : (typingUpdateCore room.text user payload now).user.isTimeUp = true := by
    simp [typingUpdateCore, hs, he, ht, optTruthy_some, he0']
    omega
  have huname : (typingUpdateCore room.text user payload now).user.username =
      user.username := by
    simp [typingUpdateCore]
  refine ⟨by simp [typingUpdateCore], by simp [typingUpdateCore],
    by simp [typingUpdateCore], by simp [typingUpdateCore], hup, hto,
    by simp [typingUpdateCore, hc], ?_⟩
  intro hf
  refine ⟨?_, ?_, ?_⟩
  · simp [typingUpdateCore, hc] at hf ⊢
    simp [hf.1, hf.2]
    exact fun h0 => absurd h0 (by omega)
  · rw [handleTypingUpdate_run st sock payload now roomId room user h1 h2 h3 hc ht]
    simp [hf, huname]
  · rw [handleTypingUpdate_run st sock payload now roomId room user h1 h2 h3 hc ht]
    simp [hto, huname]

/-- C10 witness: a participant whose deadline (time 2) has long passed sends
the full correct prompt at time 100: the update still recomputes the score
and completes them, and also times them out, on the same update. -/
theorem claim_C10_late_input_witness :
    let u : Participant :=
      { socketId := "s1", username := "Ann", score := 0, typedLength := 0,
        correctChars := 0, lastInputLength := 0, lastInputValue := "",
        lastUpdateAt := 1, isCompleted := false, completionTime := none,
        flags := [], isFlagged := false, startedAt := some 1, expiresAt := some 2,
        isTimeUp := false }
    let p : UpdatePayload := { value := some "cat", isPaste := false, delta := none }
    (typingUpdateCore "cat" u p 100).user.isTimeUp = true ∧
    (typingUpdateCore "cat" u p 100).user.score = 3 := by
  have h := claim_C10_late_input
    { socketRoomMap := [], typingSocketRoomMap := [("s1", "ROOMAAAA")],
      rooms := [],
      typingRooms := [("ROOMAAAA",
        { roomId := "ROOMAAAA", text := "cat", createdAt := 0,
          users := [("s1",
            { socketId := "s1", username := "Ann", score := 0, typedLength := 0,
              correctChars := 0, lastInputLength := 0, lastInputValue := "",
              lastUpdateAt := 1, isCompleted := false, completionTime := none,
              flags := [], isFlagged := false, startedAt := some 1, expiresAt := some 2,
              isTimeUp := false })], voiceParticipants := [] })] }
    "s1" { value := some "cat", isPaste := false, delta := none } 100 "ROOMAAAA"
    { roomId := "ROOMAAAA", text := "cat", createdAt := 0,
      users := [("s1",
        { socketId := "s1", username := "Ann", score := 0, typedLength := 0,
          correctChars := 0, lastInputLength := 0, lastInputValue := "",
          lastUpdateAt := 1, isCompleted := false, completionTime := none,
          flags := [], isFlagged := false, startedAt := some 1, expiresAt := some 2,
          isTimeUp := false })], voiceParticipants := [] }
    { socketId := "s1", username := "Ann", score := 0, typedLength := 0,
      correctChars := 0, lastInputLength := 0, lastInputValue := "",
      lastUpdateAt := 1, isCompleted := false, completionTime := none,
      flags := [], isFlagged := false, startedAt := some 1, expiresAt := some 2,
      isTimeUp := false }
    2 (by decide) (by decide) (by decide) (by decide) (by decide) (by decide)
    (by decide) (by decide) (by decide)
  exact ⟨h.2.2.2.2.1, h.1.trans (by decide)⟩

end Wavy
